import Mathlib

set_option maxRecDepth 100000

/-!
Shallow embedding of `virt_lightning/virt_lightning.py` (ObjectifLibre/virt-lightning):
the IPv4 allocator, the layered configuration merge, the username/fqdn validators,
the DNS/DHCP network reconciliation, the cloud-init network document generator and
the per-domain block-device name pool, together with theorems settling the claims
about them.
-/

/-- An IPv4 address modelled as a natural number below 2^32; `ipOf a b c d`
is the address `a.b.c.d`. -/
def ipOf (a b c d : Nat) : Nat := ((a * 256 + b) * 256 + c) * 256 + d

/-- The last (host) octet of an address, the value of
`int(interface.ip.exploded.split(".")[3])` in `get_free_ipv4`. -/
def hostOctet (ip : Nat) : Nat := ip % 256

/-- The allocator-relevant state of `LibvirtHypervisor`:
`gateway` is `self.gateway` (its `.ip` part), `network` is the address list that
`for ip in self.network` iterates over, `domainIps` are the `.ip` parts of the
persisted `ipv4` metadata entries of the defined domains (domains with no such
entry are skipped by the `if not ipstr: continue` guard and do not appear here),
and `lastFree` is `self._last_free_ipv4` (its `.ip` part; an `IPv4Interface`
object is always truthy, so `if self._last_free_ipv4` is `lastFree.isSome`). -/
structure Hypervisor where
  gateway : Nat
  network : List Nat
  domainIps : List Nat
  lastFree : Option Nat
deriving DecidableEq, Repr

/-- The loop-body filter of `get_free_ipv4`: an address is a candidate unless
its host octet is below 5, unless the cursor `_last_free_ipv4` is set and is
`>=` the address, and unless its `.ip` equals the gateway's or one recorded in
a defined domain's `ipv4` metadata. -/
def freeIpPred (h : Hypervisor) (ip : Nat) : Bool :=
  decide (5 ≤ hostOctet ip) &&
  (match h.lastFree with
   | some last => decide (last < ip)
   | none => true) &&
  decide (ip ∉ h.gateway :: h.domainIps)

/-- Embedding of `LibvirtHypervisor.get_free_ipv4`: scan `self.network` in order, return the
first address passing `freeIpPred` and record it in `_last_free_ipv4`; return
`none` (Python `None`, by falling off the loop) when no address qualifies. -/
def get_free_ipv4 (h : Hypervisor) : Option (Nat × Hypervisor) :=
  match h.network.find? (freeIpPred h) with
  | some ip => some (ip, { h with lastFree := some ip })
  | none => none

/-- The managed network `192.0.2.0/24`: iterating an `IPv4Network` yields all
256 addresses in ascending order. -/
def testNetworkAddrs : List Nat := (List.range 256).map (fun i => ipOf 192 0 2 0 + i)

/-- The hypervisor of claim C1: network `192.0.2.0/24`, gateway `192.0.2.1`,
no defined domain carrying a persisted `ipv4` metadata entry, fresh cursor. -/
def testHv : Hypervisor :=
  { gateway := ipOf 192 0 2 1, network := testNetworkAddrs, domainIps := [], lastFree := none }

/-- The state after the first allocation: only the cursor moved. -/
def testHvAfterFirst : Hypervisor := { testHv with lastFree := some (ipOf 192 0 2 5) }

/-- C1: on network 192.0.2.0/24 with gateway 192.0.2.1 and no domain metadata,
the first `get_free_ipv4` call returns 192.0.2.5, and a second call in the same
session — with .5 still recorded in no domain's metadata — returns 192.0.2.6,
because the cursor skips every address `<=` the last one handed out. -/
theorem allocator_first_two_calls :
    get_free_ipv4 testHv = some (ipOf 192 0 2 5, testHvAfterFirst) ∧
    get_free_ipv4 testHvAfterFirst =
      some (ipOf 192 0 2 6, { testHvAfterFirst with lastFree := some (ipOf 192 0 2 6) }) := by
  decide

/-- C2: whatever the allocator state, an address returned by `get_free_ipv4` is
never the gateway address, never an address recorded in a defined domain's
persisted `ipv4` metadata, and never an address whose host octet is below 5. -/
theorem allocator_never_collides (h : Hypervisor) (ip : Nat) (h' : Hypervisor)
    (hret : get_free_ipv4 h = some (ip, h')) :
    ip ≠ h.gateway ∧ ip ∉ h.domainIps ∧ 5 ≤ hostOctet ip := by
  unfold get_free_ipv4 at hret
  cases hfind : h.network.find? (freeIpPred h) with
  | none => rw [hfind] at hret; exact absurd hret (by simp)
  | some a =>
    rw [hfind] at hret
    have ha : a = ip := by
      have := congrArg (fun o => o.map Prod.fst) hret
      simpa using this
    subst ha
    have hp := List.find?_some hfind
    unfold freeIpPred at hp
    simp only [Bool.and_eq_true, decide_eq_true_eq] at hp
    obtain ⟨⟨_, _⟩, hnotmem⟩ := hp
    rw [List.mem_cons] at hnotmem
    push_neg at hnotmem
    exact ⟨hnotmem.1, hnotmem.2, by tauto⟩

/-- Witness for C2: the theorem applied to the concrete first allocation on the
C1 hypervisor state. -/
theorem allocator_never_collides_witness :
    ipOf 192 0 2 5 ≠ testHv.gateway ∧ ipOf 192 0 2 5 ∉ testHv.domainIps ∧
      5 ≤ hostOctet (ipOf 192 0 2 5) :=
  allocator_never_collides testHv (ipOf 192 0 2 5) testHvAfterFirst (by decide)

/-! ### The layered configuration merge (`LibvirtHypervisor.configure_domain`) -/

/-- A Python configuration value, with its truthiness. The hardcoded defaults
and the yaml-loaded overrides hold strings, integers, lists and possibly
`None`. -/
inductive Value where
  | vNone
  | vStr (s : String)
  | vInt (n : Int)
  | vList (l : List String)
deriving DecidableEq, Repr

/-- Python `if v:` on a configuration value. -/
def Value.truthy : Value → Bool
  | .vNone => false
  | .vStr s => decide (s ≠ "")
  | .vInt n => decide (n ≠ 0)
  | .vList l => decide (l ≠ [])

/-- A Python dict viewed through lookup. -/
def Config := String → Option Value

/-- Assignment `config[k] = v`. -/
def updateKey (cfg : Config) (k : String) (v : Value) : Config :=
  fun q => if q = k then some v else cfg q

/-- One merge loop of `configure_domain`:
`for k, v in layer.items(): if v: config[k] = v`. -/
def mergeLayer (cfg : Config) : List (String × Value) → Config
  | [] => cfg
  | (k, v) :: rest => mergeLayer (if v.truthy then updateKey cfg k v else cfg) rest

/-- The hardcoded `config` dict at the top of `configure_domain`; `username`
defaults to `getpass.getuser()`, passed in as a parameter. -/
def default_config (curUser : String) : Config := fun k =>
  if k = "groups" then some (.vList [])
  else if k = "memory" then some (.vInt 768)
  else if k = "python_interpreter" then some (.vStr "/usr/bin/python3")
  else if k = "root_password" then some (.vStr "root")
  else if k = "username" then some (.vStr curUser)
  else if k = "vcpus" then some (.vInt 1)
  else if k = "default_nic_model" then some (.vStr "virtio")
  else if k = "bootcmd" then some (.vList [])
  else none

/-- The full merge of `configure_domain`: defaults, then the distro
configuration, then the user configuration, each folded in truthiness-gated. -/
def configure_merge (curUser : String) (distro user : List (String × Value)) : Config :=
  mergeLayer (mergeLayer (default_config curUser) distro) user

theorem lookup_eq_none_of_not_mem {k : String} :
    ∀ {l : List (String × Value)}, k ∉ l.map Prod.fst → l.lookup k = none := by
  intro l
  induction l with
  | nil => intro _; rfl
  | cons hd tl ih =>
    intro hmem
    simp only [List.map_cons, List.mem_cons] at hmem
    push_neg at hmem
    have hbeq : (k == hd.1) = false := by simpa using hmem.1
    simp [List.lookup, hbeq, ih hmem.2]

/-- Looking a key up after one merge loop: with the layer's keys distinct (a
Python dict iterates each key once), the layer's value wins exactly when it is
truthy. -/
theorem mergeLayer_lookup (cfg : Config) (layer : List (String × Value)) (k : String)
    (hnd : (layer.map Prod.fst).Nodup) :
    mergeLayer cfg layer k =
      match layer.lookup k with
      | some v => if v.truthy then some v else cfg k
      | none => cfg k := by
  induction layer generalizing cfg with
  | nil => rfl
  | cons hd tl ih =>
    obtain ⟨k₁, v₁⟩ := hd
    simp only [List.map_cons, List.nodup_cons] at hnd
    simp only [mergeLayer, List.lookup]
    by_cases hk : k = k₁
    · subst hk
      rw [ih _ hnd.2, lookup_eq_none_of_not_mem hnd.1]
      by_cases ht : v₁.truthy
      · simp [ht, updateKey]
      · simp [ht]
    · have hbeq : (k == k₁) = false := by simpa using hk
      rw [ih _ hnd.2]
      simp only [hbeq]
      have hcfg : (if v₁.truthy then updateKey cfg k₁ v₁ else cfg) k = cfg k := by
        by_cases ht : v₁.truthy
        · simp [ht, updateKey, hk]
        · simp [ht]
      cases hlk : List.lookup k tl with
      | none => simp [hlk, hcfg]
      | some v => simp [hlk, hcfg]

/-- C3: for a key present in all three layers, the merged configuration holds
the user value when it is truthy, otherwise the distro value when that is
truthy, otherwise the hardcoded default — a later layer's falsy value never
overrides an earlier layer. -/
theorem config_merge_resolution (curUser : String) (distro user : List (String × Value))
    (k : String) (dv uv defv : Value)
    (hd : (distro.map Prod.fst).Nodup) (hu : (user.map Prod.fst).Nodup)
    (hdk : distro.lookup k = some dv) (huk : user.lookup k = some uv)
    (hdef : default_config curUser k = some defv) :
    configure_merge curUser distro user k =
      if uv.truthy then some uv
      else if dv.truthy then some dv
      else some defv := by
  unfold configure_merge
  rw [mergeLayer_lookup _ user k hu, huk]
  by_cases hut : uv.truthy
  · simp [hut]
  · simp only [hut, if_false, Bool.false_eq_true]
    rw [mergeLayer_lookup _ distro k hd, hdk]
    by_cases hdt : dv.truthy
    · simp [hdt]
    · simp [hdt, hdef]

/-- Witness for C3: key `memory` present in all three layers, with a truthy
distro override (2048) and a falsy user override (0): the distro value wins,
the falsy user value does not mask it. -/
theorem config_merge_resolution_witness :
    configure_merge "alice" [("memory", .vInt 2048)] [("memory", .vInt 0)] "memory" =
      if (Value.vInt 0).truthy then some (.vInt 0)
      else if (Value.vInt 2048).truthy then some (.vInt 2048)
      else some (.vInt 768) :=
  config_merge_resolution "alice" [("memory", .vInt 2048)] [("memory", .vInt 0)] "memory"
    (.vInt 2048) (.vInt 0) (.vInt 768)
    (by decide) (by decide) (by decide) (by decide) (by decide)

/-! ### Identity validators (`LibvirtDomain.username` / `LibvirtDomain.fqdn` setters) -/

/-- Character class `[a-z]`. -/
def isLowerAZ (c : Char) : Bool := decide ('a' ≤ c) && decide (c ≤ 'z')

/-- Character class `[A-Z]`. -/
def isUpperAZ (c : Char) : Bool := decide ('A' ≤ c) && decide (c ≤ 'Z')

/-- Character class `[0-9]`. -/
def isDigit09 (c : Char) : Bool := decide ('0' ≤ c) && decide (c ≤ '9')

/-- The character class `[a-z_]`, first character of the username regex. -/
def usernameHead (c : Char) : Bool := isLowerAZ c || decide (c = '_')

/-- The character class `[a-z0-9_-]`, body of the username regex. -/
def usernameBody (c : Char) : Bool :=
  isLowerAZ c || isDigit09 c || decide (c = '_') || decide (c = '-')

/-- The character class `[\.a-z0-9]` under `re.IGNORECASE` (ASCII part), body of
the fqdn regex. -/
def fqdnChar (c : Char) : Bool :=
  decide (c = '.') || isLowerAZ c || isUpperAZ c || isDigit09 c

/-- Python `$` without `re.MULTILINE`: matches at the end of the string or just
before one newline at the end of the string. -/
def pyLineEnd (l : List Char) : Bool := decide (l = []) || decide (l = ['\n'])

/-- The backtracking search a Python regex engine performs for the repetition
`[class]{1,count}$`: some repeat count `k` between 1 and `count` consumes `k`
characters of the class and leaves a `$` position. -/
def quantSearch (p : Char → Bool) (count : Nat) (l : List Char) : Bool :=
  (List.range' 1 count).any (fun k =>
    decide (k ≤ l.length) && (l.take k).all p && pyLineEnd (l.drop k))

/-- Evaluation of `re.match("[a-z_][a-z0-9_-]{1,32}$", s)` on the character list of `s`. -/
def username_re_match_chars : List Char → Bool
  | [] => false
  | c :: rest => usernameHead c && quantSearch usernameBody 32 rest

/-- The username validation of the `LibvirtDomain.username` setter. -/
def username_re_match (s : String) : Bool := username_re_match_chars s.data

/-- Evaluation of `re.compile(r"^[\.a-z0-9]+$", re.IGNORECASE).match(s)`: the unbounded `+`
searches repeat counts up to the length of the string. -/
def fqdn_re_match (s : String) : Bool := quantSearch fqdnChar s.data.length s.data

/-- Drop one newline from the end of the list, when present: the characters a
trailing `$` leaves unconsumed. -/
def stripTrailingNewline (l : List Char) : List Char :=
  if l.getLast? = some '\n' then l.dropLast else l

theorem stripTrailingNewline_concat (ys : List Char) :
    stripTrailingNewline (ys ++ ['\n']) = ys := by
  unfold stripTrailingNewline
  rw [if_pos (List.getLast?_concat _), List.dropLast_concat]

theorem stripTrailingNewline_of_getLast_ne (l : List Char) (h : l.getLast? ≠ some '\n') :
    stripTrailingNewline l = l := by
  unfold stripTrailingNewline
  rw [if_neg h]

theorem quantSearch_eq_strip (p : Char → Bool) (hp : p '\n' = false) (count : Nat)
    (l : List Char) :
    quantSearch p count l =
      (decide (1 ≤ (stripTrailingNewline l).length) &&
        decide ((stripTrailingNewline l).length ≤ count) &&
        (stripTrailingNewline l).all p) := by
  rw [Bool.eq_iff_iff]
  simp only [quantSearch, List.any_eq_true, List.mem_range'_1, Bool.and_eq_true,
    decide_eq_true_eq, pyLineEnd, Bool.or_eq_true]
  constructor
  · rintro ⟨k, ⟨hk1, hk2⟩, ⟨⟨hkle, hall⟩, hend⟩⟩
    cases hend with
    | inl hnil =>
      have hlen : l.length = k := Nat.le_antisymm (List.drop_eq_nil_iff.mp hnil) hkle
      have htake : l.take k = l := List.take_of_length_le (Nat.le_of_eq hlen)
      rw [htake] at hall
      have hstrip : stripTrailingNewline l = l := by
        refine stripTrailingNewline_of_getLast_ne l ?_
        intro hlast
        obtain ⟨ys, rfl⟩ := List.getLast?_eq_some_iff.mp hlast
        have hmem : p '\n' = true :=
          List.all_eq_true.mp hall '\n' (List.mem_append_right ys (by simp))
        rw [hp] at hmem
        exact Bool.false_ne_true hmem
      rw [hstrip]
      exact ⟨⟨by omega, by omega⟩, hall⟩
    | inr hnl =>
      have hdecomp : l = l.take k ++ ['\n'] := by
        conv_lhs => rw [← List.take_append_drop k l]
        rw [hnl]
      have hstrip : stripTrailingNewline l = l.take k := by
        have hsc := stripTrailingNewline_concat (l.take k)
        rw [← hdecomp] at hsc
        exact hsc
      have hlen : (l.take k).length = k := by
        rw [List.length_take]
        omega
      rw [hstrip, hlen]
      exact ⟨⟨by omega, by omega⟩, hall⟩
  · rintro ⟨⟨h1, h2⟩, hall⟩
    by_cases hlast : l.getLast? = some '\n'
    · obtain ⟨ys, rfl⟩ := List.getLast?_eq_some_iff.mp hlast
      rw [stripTrailingNewline_concat] at h1 h2 hall
      refine ⟨ys.length, ⟨h1, by omega⟩, ⟨⟨by simp, ?_⟩, Or.inr ?_⟩⟩
      · rw [List.take_left]
        exact hall
      · rw [List.drop_left]
    · rw [stripTrailingNewline_of_getLast_ne l hlast] at h1 h2 hall
      refine ⟨l.length, ⟨h1, by omega⟩, ⟨⟨Nat.le_refl _, ?_⟩, Or.inl ?_⟩⟩
      · rw [List.take_of_length_le (Nat.le_refl _)]
        exact hall
      · exact List.drop_eq_nil_iff.mpr (Nat.le_refl _)

/-- The username/fqdn-relevant state of a `LibvirtDomain`: the `name` field of
`user_data["users"][0]`, the `fqdn` key of `user_data`, and the `username` and
`fqdn` entries of the hypervisor metadata store. -/
structure IdentityState where
  users_name : Option String
  user_data_fqdn : Option String
  meta_username : Option String
  meta_fqdn : Option String
deriving DecidableEq, Repr

/-- A fresh `LibvirtDomain`: no users document, no fqdn, no metadata. -/
def initialIdentity : IdentityState :=
  { users_name := none, user_data_fqdn := none, meta_username := none, meta_fqdn := none }

/-- The `LibvirtDomain.username` setter: on a regex mismatch it raises
(`none`); otherwise it writes the `users` document and records the `username`
metadata entry. -/
def username_setter (st : IdentityState) (u : String) : Option IdentityState :=
  if username_re_match u then
    some { st with users_name := some u, meta_username := some u }
  else none

/-- The `LibvirtDomain.fqdn` setter: an empty or non-matching value is only
logged and the state is returned unchanged (no exception is raised, the setter
is a total function); otherwise `user_data["fqdn"]` and the `fqdn` metadata
entry are written. -/
def fqdn_setter (st : IdentityState) (value : String) : IdentityState :=
  if value = "" || !fqdn_re_match value then st
  else { st with user_data_fqdn := some value, meta_fqdn := some value }

/-- The username pattern exactly as claim C4 words it: characters drawn from
lowercase letters, digits, underscore and hyphen; 2 to 33 characters; not
starting with a digit. -/
def claimedUsernamePattern (s : String) : Bool :=
  match s.data with
  | [] => false
  | c :: _ =>
    s.data.all usernameBody && decide (2 ≤ s.data.length) &&
      decide (s.data.length ≤ 33) && !isDigit09 c

/-- Counterexample to C4: the string `-a` satisfies the claimed pattern (two
characters from the allowed set, not starting with a digit) yet the setter
raises on it, because the regex `[a-z_][a-z0-9_-]{1,32}$` requires the first
character to be a lowercase letter or an underscore; and `ab` followed by a
newline violates the claimed pattern yet is accepted, because Python's `$`
also matches just before a trailing newline. -/
theorem username_validation_counterexample :
    claimedUsernamePattern "-a" = true ∧
    username_setter initialIdentity "-a" = none ∧
    claimedUsernamePattern "ab\n" = false ∧
    (username_setter initialIdentity "ab\n").isSome = true := by
  decide

/-- The username pattern the code actually enforces: a lowercase letter or
underscore, then 1 to 32 characters from lowercase/digit/underscore/hyphen,
optionally followed by one trailing newline (tolerated by Python's `$`). -/
def amendedUsernamePattern (s : String) : Bool :=
  match s.data with
  | [] => false
  | c :: rest =>
    usernameHead c &&
      (decide (1 ≤ (stripTrailingNewline rest).length) &&
        decide ((stripTrailingNewline rest).length ≤ 32) &&
        (stripTrailingNewline rest).all usernameBody)

/-- C4 as amended: the setter accepts a string (returns an updated state)
exactly when it starts with a lowercase letter or underscore followed by 1–32
characters from lowercase/digit/underscore/hyphen plus an optional trailing
newline, and raises on every other string; in particular `alice-2` is accepted
while `Alice` and `2alice` raise. -/
theorem username_validation_amended :
    (∀ st u, (username_setter st u).isSome = amendedUsernamePattern u) ∧
    (username_setter initialIdentity "alice-2").isSome = true ∧
    username_setter initialIdentity "Alice" = none ∧
    username_setter initialIdentity "2alice" = none := by
  refine ⟨fun st u => ?_, by decide, by decide, by decide⟩
  have hre : username_re_match u = amendedUsernamePattern u := by
    unfold username_re_match username_re_match_chars amendedUsernamePattern
    cases u.data with
    | nil => rfl
    | cons c rest =>
      show (usernameHead c && quantSearch usernameBody 32 rest) = _
      rw [quantSearch_eq_strip usernameBody rfl 32 rest]
  unfold username_setter
  rw [hre]
  by_cases hm : amendedUsernamePattern u
  · simp [hm]
  · simp [hm]

/-- The set of strings claim C5 says the fqdn validator rejects is the
complement of: nonempty and made of letters, digits and dots only
(case-insensitive). -/
def claimedFqdnPattern (s : String) : Bool :=
  decide (s.data ≠ []) && s.data.all fqdnChar

/-- Counterexample to C5: the string `abc` followed by a newline lies outside
the letters/digits/dots character set, yet the setter does not leave the fqdn
field unset — Python's `$` matches just before a trailing newline, the value
passes validation and both the user-data document and the metadata store are
modified. -/
theorem fqdn_validation_counterexample :
    claimedFqdnPattern "abc\n" = false ∧
    fqdn_setter initialIdentity "abc\n" ≠ initialIdentity ∧
    (fqdn_setter initialIdentity "abc\n").meta_fqdn = some "abc\n" ∧
    (fqdn_setter initialIdentity "abc\n").user_data_fqdn = some "abc\n" := by
  decide

/-- The fqdn pattern the code actually enforces: nonempty, letters, digits and
dots (case-insensitive), plus an optional single trailing newline tolerated by
Python's `$`. -/
def amendedFqdnPattern (s : String) : Bool :=
  decide (1 ≤ (stripTrailingNewline s.data).length) &&
    (stripTrailingNewline s.data).all fqdnChar

theorem fqdn_re_match_eq_amended (s : String) :
    fqdn_re_match s = amendedFqdnPattern s := by
  unfold fqdn_re_match amendedFqdnPattern
  rw [quantSearch_eq_strip fqdnChar rfl s.data.length s.data]
  have hle : (stripTrailingNewline s.data).length ≤ s.data.length := by
    unfold stripTrailingNewline
    by_cases h : s.data.getLast? = some '\n'
    · rw [if_pos h, List.length_dropLast]; omega
    · rw [if_neg h]
  rw [decide_eq_true hle]
  simp

/-- C5 as amended: setting the fqdn to any string outside the accepted set —
nonempty strings of letters, digits and dots (case-insensitive) with an
optional trailing newline — never raises (the setter is a total function): the
violation is only logged and neither the user-data document nor the metadata
store is modified; an accepted value is written to both. In particular
`host.example.com` is accepted while `bad_host!` leaves the state unchanged. -/
theorem fqdn_validation_amended :
    (∀ st v, amendedFqdnPattern v = false → fqdn_setter st v = st) ∧
    (∀ st v, amendedFqdnPattern v = true →
      fqdn_setter st v =
        { st with user_data_fqdn := some v, meta_fqdn := some v }) ∧
    (fqdn_setter initialIdentity "host.example.com").meta_fqdn =
      some "host.example.com" ∧
    fqdn_setter initialIdentity "bad_host!" = initialIdentity := by
  refine ⟨fun st v hv => ?_, fun st v hv => ?_, by decide, by decide⟩
  · unfold fqdn_setter
    rw [fqdn_re_match_eq_amended, hv]
    simp
  · have hne : v ≠ "" := by
      intro hempty
      rw [hempty] at hv
      have hemp : amendedFqdnPattern "" = false := by decide
      rw [hemp] at hv
      exact Bool.false_ne_true hv
    unfold fqdn_setter
    rw [fqdn_re_match_eq_amended, hv]
    simp [hne]

/-- Witness for C5 as amended: the rejection branch applied to the concrete
string `bad_host!` and the acceptance branch to `host.example.com`. -/
theorem fqdn_validation_amended_witness :
    fqdn_setter initialIdentity "bad_host!" = initialIdentity ∧
    fqdn_setter initialIdentity "host.example.com" =
      { initialIdentity with
          user_data_fqdn := some "host.example.com",
          meta_fqdn := some "host.example.com" } :=
  ⟨fqdn_validation_amended.1 initialIdentity "bad_host!" (by decide),
   fqdn_validation_amended.2.1 initialIdentity "host.example.com" (by decide)⟩

/-! ### DNS/DHCP reconciliation
(`LibvirtHypervisor.start` / `remove_domain_from_network` / `add_domain_to_network`) -/

/-- The managed network's live host entries: `dnsHosts` is the
`./dns/host[@ip]` list (address and hostnames), `dhcpHosts` the
`./ip/dhcp/host` list (address and MAC). -/
structure NetworkState where
  dnsHosts : List (Nat × List String)
  dhcpHosts : List (Nat × String)
deriving DecidableEq, Repr

/-- The network-relevant view of a domain: its persisted primary address, its
MAC addresses in attach order, its name and fqdn metadata. -/
structure NetDomain where
  ipv4 : Option Nat
  mac_addresses : List String
  name : String
  fqdn : Option String
deriving DecidableEq, Repr

/-- Embedding of `LibvirtHypervisor.remove_domain_from_network`: a no-op when the domain has
no address; otherwise three removal passes, deleting every DNS host entry with
the domain's address, every DHCP host entry with the domain's address, and
every DHCP host entry with one of the domain's MAC addresses. -/
def remove_domain_from_network (st : NetworkState) (d : NetDomain) : NetworkState :=
  match d.ipv4 with
  | none => st
  | some ip =>
    { dnsHosts := st.dnsHosts.filter (fun e => !(e.1 == ip)),
      dhcpHosts :=
        (st.dhcpHosts.filter (fun e => !(e.1 == ip))).filter
          (fun e => !(d.mac_addresses.contains e.2)) }

/-- The names of `set_dns_entry(ipv4, [domain.name, domain.fqdn])`: truthy names only;
`ADD_FIRST` prepends the entry. -/
def dnsEntryNames (d : NetDomain) : List String :=
  [some d.name, d.fqdn].filterMap (fun o =>
    match o with
    | some s => if s = "" then none else some s
    | none => none)

/-- Embedding of `LibvirtHypervisor.add_domain_to_network`: prepend a DNS host entry for the
domain's address and names, then a DHCP host entry for its address and first
MAC. `none` models the `AttributeError`/`IndexError` Python would raise when
the domain has no address or no interface. -/
def add_domain_to_network (st : NetworkState) (d : NetDomain) : Option NetworkState :=
  match d.ipv4, d.mac_addresses with
  | some ip, mac :: _ =>
    some { dnsHosts := (ip, dnsEntryNames d) :: st.dnsHosts,
           dhcpHosts := (ip, mac) :: st.dhcpHosts }
  | _, _ => none

/-- The network half of `LibvirtHypervisor.start`: retract stale entries, then
register fresh ones. -/
def start_network_phase (st : NetworkState) (d : NetDomain) : Option NetworkState :=
  add_domain_to_network (remove_domain_from_network st d) d

theorem filter_filter_out {α : Type} (l : List α) (p q : α → Bool)
    (h : ∀ a, q a = true → p a = false) : (l.filter p).filter q = [] := by
  induction l with
  | nil => rfl
  | cons hd tl ih =>
    cases hp : p hd with
    | false => simpa [List.filter, hp] using ih
    | true =>
      cases hq : q hd with
      | false => simpa [List.filter, hp, hq] using ih
      | true => rw [h hd hq] at hp; exact absurd hp (by simp)

/-- After one retract-register phase, exactly one DNS entry and one DHCP entry
carry the domain's address, whatever the starting state. -/
theorem start_network_phase_counts (st : NetworkState) (d : NetDomain) (ip : Nat)
    (mac : String) (ms : List String) (st' : NetworkState)
    (hip : d.ipv4 = some ip) (hm : d.mac_addresses = mac :: ms)
    (hrun : start_network_phase st d = some st') :
    (st'.dnsHosts.filter (fun e => e.1 == ip)).length = 1 ∧
    (st'.dhcpHosts.filter (fun e => e.1 == ip && e.2 == mac)).length = 1 := by
  unfold start_network_phase add_domain_to_network remove_domain_from_network at hrun
  rw [hip, hm] at hrun
  simp only [Option.some.injEq] at hrun
  subst hrun
  constructor
  · simp only [List.filter_cons, beq_self_eq_true, if_pos, List.length_cons]
    have hnil : (st.dnsHosts.filter (fun e => !(e.1 == ip))).filter
        (fun e => e.1 == ip) = [] := by
      refine filter_filter_out _ _ _ (fun a ha => ?_)
      rw [ha]
      rfl
    simp [hnil]
  · simp only [List.filter_cons, beq_self_eq_true, Bool.and_self, if_pos, List.length_cons]
    have hnil : ((st.dhcpHosts.filter (fun e => !(e.1 == ip))).filter
        (fun e => !((mac :: ms).contains e.2))).filter
        (fun e => e.1 == ip && e.2 == mac) = [] := by
      rw [List.filter_eq_nil_iff]
      intro a ha
      have har := (List.mem_filter.mp (List.mem_filter.mp ha).1).2
      simp only [Bool.not_eq_true', beq_eq_false_iff_ne] at har
      simp [har]
    simp only [hnil, List.length_nil]

/-- C6: for a domain with a fixed address and MAC, running the start sequence's
retract-then-register phase twice in succession against the same managed
network leaves exactly one DNS host entry for the domain's address and exactly
one DHCP host entry for its address/MAC pair, whatever entries the network
held before. -/
theorem start_twice_single_entries (st : NetworkState) (d : NetDomain) (ip : Nat)
    (mac : String) (ms : List String) (st1 st2 : NetworkState)
    (hip : d.ipv4 = some ip) (hm : d.mac_addresses = mac :: ms)
    (_h1 : start_network_phase st d = some st1)
    (h2 : start_network_phase st1 d = some st2) :
    (st2.dnsHosts.filter (fun e => e.1 == ip)).length = 1 ∧
    (st2.dhcpHosts.filter (fun e => e.1 == ip && e.2 == mac)).length = 1 :=
  start_network_phase_counts st1 d ip mac ms st2 hip hm h2

/-- Witness for C6: a network carrying one stale DNS and one stale DHCP entry
for the address; two phases leave exactly one of each. -/
theorem start_twice_single_entries_witness :
    ((NetworkState.mk [(ipOf 192 0 2 5, ["vm1"])] [(ipOf 192 0 2 5, "52:54:00:00:00:01")]
      ).dnsHosts.filter (fun e => e.1 == ipOf 192 0 2 5)).length = 1 ∧
    ((NetworkState.mk [(ipOf 192 0 2 5, ["vm1"])] [(ipOf 192 0 2 5, "52:54:00:00:00:01")]
      ).dhcpHosts.filter
        (fun e => e.1 == ipOf 192 0 2 5 && e.2 == "52:54:00:00:00:01")).length = 1 :=
  start_twice_single_entries
    (NetworkState.mk [(ipOf 192 0 2 5, ["stale", "old"])] [(ipOf 192 0 2 5, "de:ad:be:ef:00:01")])
    (NetDomain.mk (some (ipOf 192 0 2 5)) ["52:54:00:00:00:01"] "vm1" none)
    (ipOf 192 0 2 5) "52:54:00:00:00:01" []
    (NetworkState.mk [(ipOf 192 0 2 5, ["vm1"])] [(ipOf 192 0 2 5, "52:54:00:00:00:01")])
    (NetworkState.mk [(ipOf 192 0 2 5, ["vm1"])] [(ipOf 192 0 2 5, "52:54:00:00:00:01")])
    rfl rfl (by decide) (by decide)

/-! ### Block devices (`LibvirtDomain.getNextBlckDevice` / `attachDisk`) -/

/-- Python `string.ascii_lowercase` as a character list. -/
def ascii_lowercase : List Char := "abcdefghijklmnopqrstuvwxyz".data

/-- The disk-attachment view of a `LibvirtDomain`: its `distro` metadata and
the lazily created `blockdev` name pool (`none` before the first use, mirroring
`hasattr`). -/
structure DiskDomain where
  distro : String
  blockdev : Option (List Char)
deriving DecidableEq, Repr

/-- Embedding of `LibvirtDomain.getNextBlckDevice`: on first use initialize `blockdev` to
the reversed lowercase alphabet; `list.pop()` removes and returns the last
element, so letters come out in alphabetical order; popping an empty list
raises `IndexError`, modelled as `none`. -/
def getNextBlckDevice (d : DiskDomain) : Option (String × DiskDomain) :=
  let pool := match d.blockdev with
    | none => ascii_lowercase.reverse
    | some l => l
  match pool.getLast? with
  | none => none
  | some c => some ("vd".push c, { d with blockdev := some pool.dropLast })

/-- The disk element `attachDisk` builds and attaches: device role, driver
type, source volume path, target device name and target bus. -/
structure DiskDevice where
  device : String
  driver_type : String
  source : String
  dev : String
  bus : String
deriving DecidableEq, Repr

/-- Python `str.startswith`, written on character lists so that it evaluates by
kernel reduction. -/
def strStartsWith (s pre : String) : Bool := pre.data.isPrefixOf s.data

/-- Embedding of `LibvirtDomain.attachDisk` (defaults in Python: `device="disk"`,
`disk_type="qcow2"`): the bus is `ide` for a cdrom, else `sata` when the
domain's distro starts with `esxi`, else `virtio`; the target name comes from
`getNextBlckDevice` (whose exhaustion propagates). -/
def attachDisk (d : DiskDomain) (volume : String) (device : String)
    (disk_type : String) : Option (DiskDevice × DiskDomain) :=
  let bus := if device = "cdrom" then "ide"
             else if strStartsWith d.distro "esxi" then "sata"
             else "virtio"
  match getNextBlckDevice d with
  | none => none
  | some (devName, d') =>
    some ({ device := device, driver_type := disk_type, source := volume,
            dev := devName, bus := bus }, d')

/-- Counterexample to C7: for a domain of the esxi guest family the cloud-init
seed media (cdrom) is still attached on the `ide` bus, not the family's forced
`sata` bus — the cdrom branch is tested before the distro branch, so the forced
bus does not cover the seed media. -/
theorem esxi_cdrom_bus_counterexample :
    (attachDisk (DiskDomain.mk "esxi-6.7" none) "seed.iso" "cdrom" "raw").map
        (fun r => r.1.bus) = some "ide" ∧
    (attachDisk (DiskDomain.mk "esxi-6.7" none) "seed.iso" "cdrom" "raw").map
        (fun r => r.1.bus) ≠ some "sata" := by
  decide

/-- C7 as amended: the bus is `ide` whenever the device is the seed media
(cdrom), for every distro including the esxi family; for non-cdrom disks the
esxi family forces `sata` and every other distro gets `virtio`. -/
theorem attach_disk_bus_rules (d : DiskDomain) (vol dev dtype : String)
    (disk : DiskDevice) (d' : DiskDomain)
    (h : attachDisk d vol dev dtype = some (disk, d')) :
    (dev = "cdrom" → disk.bus = "ide") ∧
    (dev ≠ "cdrom" → strStartsWith d.distro "esxi" = true → disk.bus = "sata") ∧
    (dev ≠ "cdrom" → strStartsWith d.distro "esxi" = false → disk.bus = "virtio") := by
  unfold attachDisk at h
  cases hnext : getNextBlckDevice d with
  | none => rw [hnext] at h; exact absurd h (by simp)
  | some p =>
    rw [hnext] at h
    simp only [Option.some.injEq, Prod.mk.injEq] at h
    have hbus : disk.bus =
        (if dev = "cdrom" then "ide"
         else if strStartsWith d.distro "esxi" then "sata" else "virtio") := by
      rw [← h.1]
    refine ⟨fun hc => ?_, fun hc he => ?_, fun hc he => ?_⟩
    · rw [hbus, if_pos hc]
    · rw [hbus, if_neg hc, if_pos he]
    · rw [hbus, if_neg hc, if_neg (by simp [he])]

/-- Witness for C7 as amended: a non-cdrom disk of an esxi domain gets the
forced `sata` bus. -/
theorem attach_disk_bus_rules_witness :
    ("disk" = "cdrom" → (DiskDevice.mk "disk" "qcow2" "root.qcow2" "vda" "sata").bus = "ide") ∧
    ("disk" ≠ "cdrom" → strStartsWith "esxi-6.7" "esxi" = true →
      (DiskDevice.mk "disk" "qcow2" "root.qcow2" "vda" "sata").bus = "sata") ∧
    ("disk" ≠ "cdrom" → strStartsWith "esxi-6.7" "esxi" = false →
      (DiskDevice.mk "disk" "qcow2" "root.qcow2" "vda" "sata").bus = "virtio") :=
  attach_disk_bus_rules (DiskDomain.mk "esxi-6.7" none) "root.qcow2" "disk" "qcow2"
    (DiskDevice.mk "disk" "qcow2" "root.qcow2" "vda" "sata")
    (DiskDomain.mk "esxi-6.7" (some "zyxwvutsrqponmlkjihgfedcb".data))
    (by decide)

/-- A sequence of `getNextBlckDevice` calls on one domain, collecting each
result (`none` for a raised `IndexError`, after which the pool stays empty). -/
def runBlockDevCalls : Nat → DiskDomain → List (Option String) × DiskDomain
  | 0, d => ([], d)
  | n + 1, d =>
    match getNextBlckDevice d with
    | none =>
      let r := runBlockDevCalls n d
      (none :: r.1, r.2)
    | some (s, d') =>
      let r := runBlockDevCalls n d'
      (some s :: r.1, r.2)

/-- A sequence of `attachDisk` calls on one domain, each with its own volume,
device role and disk type, collecting the returned device names. -/
def runAttachDisks : List (String × String × String) → DiskDomain → List (Option String) × DiskDomain
  | [], d => ([], d)
  | (vol, dev, dt) :: rest, d =>
    match attachDisk d vol dev dt with
    | none =>
      let r := runAttachDisks rest d
      (none :: r.1, r.2)
    | some (disk, d') =>
      let r := runAttachDisks rest d'
      (some disk.dev :: r.1, r.2)

/-- The device names of a call sequence depend only on how many disks are
attached, not on each call's volume, role or disk type. -/
theorem runAttachDisks_names (calls : List (String × String × String)) :
    ∀ d : DiskDomain, (runAttachDisks calls d).1 = (runBlockDevCalls calls.length d).1 := by
  induction calls with
  | nil => intro d; rfl
  | cons hd rest ih =>
    intro d
    obtain ⟨vol, dev, dt⟩ := hd
    simp only [runAttachDisks, runBlockDevCalls, List.length_cons, attachDisk]
    cases hnext : getNextBlckDevice d with
    | none => simp [ih]
    | some p => simp [ih]

/-- The collected names do not depend on the domain's distro tag either. -/
theorem runBlockDevCalls_fst_distro (n : Nat) :
    ∀ (b : Option (List Char)) (s t : String),
    (runBlockDevCalls n (DiskDomain.mk s b)).1 = (runBlockDevCalls n (DiskDomain.mk t b)).1 := by
  induction n with
  | zero => intro b s t; rfl
  | succ n ih =>
    intro b s t
    simp only [runBlockDevCalls, getNextBlckDevice]
    cases hl : (match b with
      | none => ascii_lowercase.reverse
      | some l => l).getLast? with
    | none => simp [hl, ih b s t]
    | some c => simp [hl, ih (some _) s t]

/-- C8: on a fresh domain of any distro, any sequence of at most 26
`attachDisk` calls — whatever each call's volume, device role or disk type —
returns device names `vda`, `vdb`, ... in order: the k-th call gets the k-th
slot, and the names are strictly ascending (lexicographically on their
characters); the seed disk and the root disk draw from one monotonically
increasing per-domain namespace. -/
theorem attach_disk_names_sequential (distro : String)
    (calls : List (String × String × String)) (hn : calls.length ≤ 26) :
    (runAttachDisks calls (DiskDomain.mk distro none)).1 =
      (List.range calls.length).map (fun k => some (String.push "vd" (Char.ofNat (97 + k)))) ∧
    List.Pairwise (fun a b : String => a.data < b.data)
      ((runAttachDisks calls (DiskDomain.mk distro none)).1.filterMap id) := by
  have key : ∀ m : Nat, m ≤ 26 →
      (runBlockDevCalls m (DiskDomain.mk "" none)).1 =
        (List.range m).map (fun k => some (String.push "vd" (Char.ofNat (97 + k)))) ∧
      List.Pairwise (fun a b : String => a.data < b.data)
        ((runBlockDevCalls m (DiskDomain.mk "" none)).1.filterMap id) := by
    decide
  have hnames : (runAttachDisks calls (DiskDomain.mk distro none)).1 =
      (runBlockDevCalls calls.length (DiskDomain.mk "" none)).1 := by
    rw [runAttachDisks_names calls (DiskDomain.mk distro none)]
    exact runBlockDevCalls_fst_distro calls.length none distro ""
  rw [hnames]
  exact key calls.length hn

/-- Witness for C8: three attachments — the seed cdrom first, then two qcow2
disks — get `vda`, `vdb`, `vdc` in strictly ascending order. -/
theorem attach_disk_names_sequential_witness :
    (runAttachDisks [("seed.iso", "cdrom", "raw"), ("root.qcow2", "disk", "qcow2"),
        ("data.qcow2", "disk", "qcow2")] (DiskDomain.mk "centos-8" none)).1 =
      (List.range 3).map (fun k => some (String.push "vd" (Char.ofNat (97 + k)))) ∧
    List.Pairwise (fun a b : String => a.data < b.data)
      ((runAttachDisks [("seed.iso", "cdrom", "raw"), ("root.qcow2", "disk", "qcow2"),
          ("data.qcow2", "disk", "qcow2")] (DiskDomain.mk "centos-8" none)).1.filterMap id) :=
  attach_disk_names_sequential "centos-8"
    [("seed.iso", "cdrom", "raw"), ("root.qcow2", "disk", "qcow2"),
      ("data.qcow2", "disk", "qcow2")] (by decide)

/-- C10: the per-domain name pool is the fixed finite set `vda`–`vdz`,
initialized lazily on first use: the first 26 calls on one domain yield the 26
pairwise-distinct names in order, and the 27th name request pops from an empty
list and raises (`none`) — a limit the spec does not state. -/
theorem blockdev_pool_exhaustion :
    (DiskDomain.mk "fedora-40" none).blockdev = none ∧
    (runBlockDevCalls 26 (DiskDomain.mk "fedora-40" none)).1.filterMap id =
      (List.range 26).map (fun k => String.push "vd" (Char.ofNat (97 + k))) ∧
    ((runBlockDevCalls 26 (DiskDomain.mk "fedora-40" none)).1.filterMap id).Nodup ∧
    getNextBlckDevice (runBlockDevCalls 26 (DiskDomain.mk "fedora-40" none)).2 = none := by
  decide

/-! ### Dialect A network document
(`LibvirtHypervisor.generate_openstack_network_config`) -/

/-- One element of `domain.additional_ipv4`, as `attachNetwork` records it:
the sentinel string `"dhcp"` or a static address, with its prefix length when
the string carried a `/` (absent prefixes are defaulted to `/24` by the
generator). -/
inductive AddIp where
  | dhcp
  | staticAddr (ip : Nat) (prefixLen : Option Nat)
deriving DecidableEq, Repr

/-- The netmask of a prefix length, as `IPv4Interface(...).netmask`. -/
def netmaskOfPrefix (p : Nat) : Nat := (2 ^ 32 - 2 ^ (32 - p)) % 2 ^ 32

/-- One entry of the generated `networks` list: a static entry carries an
address, a netmask, routes and a network id; a dhcp entry carries only the
DHCP marker (`type: ipv4_dhcp`) with its link and network id. Routes are
(network, netmask, gateway) triples. -/
inductive NetworkEntry where
  | staticEntry (id : String) (link : String) (ip_address : Nat) (netmask : Nat)
      (routes : List (Nat × Nat × Nat)) (network_id : String)
  | dhcpEntry (id : String) (link : String) (network_id : String)
deriving DecidableEq, Repr

/-- One entry of the generated `links` list (its `type` is always `"phy"`). -/
structure LinkEntry where
  id : String
  ethernet_mac_address : String
deriving DecidableEq, Repr

/-- The generated document: links, networks and the DNS service address. -/
structure OpenstackNetworkData where
  links : List LinkEntry
  networks : List NetworkEntry
  dns_address : Nat
deriving DecidableEq, Repr

/-- The network facts of the hypervisor the generator reads: the gateway's
address, the managed network's netmask and the DNS address. -/
structure CloudHv where
  gateway : Nat
  netmask : Nat
  dns : Nat
deriving DecidableEq, Repr

/-- The generator's view of a domain: MAC addresses in attach order, the
primary address (`domain.ipv4.ip`) and the additional address list, whose
`none` entries (recorded for interfaces attached with no address) are skipped
by the `if not ipv4: continue` guard while still consuming their index. -/
structure CloudDomain where
  mac_addresses : List String
  ipv4 : Nat
  additional_ipv4 : List (Option AddIp)
deriving DecidableEq, Repr

/-- The `for i, ipv4 in enumerate(domain.additional_ipv4)` loop: entry ids use
the index `i`, links use index `i + 1` (link 0 is the primary interface).
`uuid.uuid4()` of a static additional entry is a fresh random identifier the
claims never inspect; it is modelled as the fixed placeholder `"uuid4"`. -/
def additionalNetworks : Nat → List (Option AddIp) → List NetworkEntry
  | _, [] => []
  | i, none :: rest => additionalNetworks (i + 1) rest
  | i, some AddIp.dhcp :: rest =>
    NetworkEntry.dhcpEntry ("private-ipv4-" ++ toString i) ("interface" ++ toString (i + 1))
        "da5bb487-5193-4a65-a3df-4a0055a8c0d7" ::
      additionalNetworks (i + 1) rest
  | i, some (AddIp.staticAddr ip pl) :: rest =>
    NetworkEntry.staticEntry ("private-ipv4-" ++ toString i) ("interface" ++ toString (i + 1))
        ip (netmaskOfPrefix (pl.getD 24)) [] "uuid4" ::
      additionalNetworks (i + 1) rest

/-- Embedding of `LibvirtHypervisor.generate_openstack_network_config`: one `phy` link per
MAC address (`interface0`, `interface1`, ...), a primary static network entry
on `interface0` carrying the domain's address, the managed network's netmask
and a default route via the gateway, followed by the additional entries, plus
the DNS service. -/
def generate_openstack_network_config (hv : CloudHv) (d : CloudDomain) :
    OpenstackNetworkData :=
  { links := d.mac_addresses.enum.map
      (fun e => LinkEntry.mk ("interface" ++ toString e.1) e.2),
    networks :=
      NetworkEntry.staticEntry "private-ipv4" "interface0" d.ipv4 hv.netmask
          [(0, 0, hv.gateway)] "da5bb487-5193-4a65-a3df-4a0055a8c0d7" ::
        additionalNetworks 0 d.additional_ipv4,
    dns_address := hv.dns }

/-- C9: for a domain whose additional address list is exactly one `"dhcp"`
sentinel, the Dialect A network document has exactly two network entries — the
primary static entry with the domain's address, the network netmask and a
default route via the gateway, and one additional entry carrying only the DHCP
marker — and one link entry per MAC address of the domain. -/
theorem openstack_network_config_shape (hv : CloudHv) (d : CloudDomain)
    (hadd : d.additional_ipv4 = [some AddIp.dhcp]) :
    (generate_openstack_network_config hv d).networks.length = 2 ∧
    (generate_openstack_network_config hv d).networks =
      [NetworkEntry.staticEntry "private-ipv4" "interface0" d.ipv4 hv.netmask
          [(0, 0, hv.gateway)] "da5bb487-5193-4a65-a3df-4a0055a8c0d7",
       NetworkEntry.dhcpEntry "private-ipv4-0" "interface1"
          "da5bb487-5193-4a65-a3df-4a0055a8c0d7"] ∧
    (generate_openstack_network_config hv d).links.length =
      d.mac_addresses.length := by
  unfold generate_openstack_network_config
  rw [hadd]
  refine ⟨rfl, rfl, ?_⟩
  simp [List.enum_length]

/-- Witness for C9: a domain with two interfaces (two MACs), a primary static
address and one additional dhcp address. -/
theorem openstack_network_config_shape_witness :
    (generate_openstack_network_config (CloudHv.mk (ipOf 192 0 2 1) (ipOf 255 255 255 0) (ipOf 192 0 2 1))
        (CloudDomain.mk ["52:54:00:00:00:01", "52:54:00:00:00:02"] (ipOf 192 0 2 5)
          [some AddIp.dhcp])).networks.length = 2 ∧
    (generate_openstack_network_config (CloudHv.mk (ipOf 192 0 2 1) (ipOf 255 255 255 0) (ipOf 192 0 2 1))
        (CloudDomain.mk ["52:54:00:00:00:01", "52:54:00:00:00:02"] (ipOf 192 0 2 5)
          [some AddIp.dhcp])).networks =
      [NetworkEntry.staticEntry "private-ipv4" "interface0" (ipOf 192 0 2 5) (ipOf 255 255 255 0)
          [(0, 0, ipOf 192 0 2 1)] "da5bb487-5193-4a65-a3df-4a0055a8c0d7",
       NetworkEntry.dhcpEntry "private-ipv4-0" "interface1"
          "da5bb487-5193-4a65-a3df-4a0055a8c0d7"] ∧
    (generate_openstack_network_config (CloudHv.mk (ipOf 192 0 2 1) (ipOf 255 255 255 0) (ipOf 192 0 2 1))
        (CloudDomain.mk ["52:54:00:00:00:01", "52:54:00:00:00:02"] (ipOf 192 0 2 5)
          [some AddIp.dhcp])).links.length =
      (CloudDomain.mk ["52:54:00:00:00:01", "52:54:00:00:00:02"] (ipOf 192 0 2 5)
          [some AddIp.dhcp]).mac_addresses.length :=
  openstack_network_config_shape
    (CloudHv.mk (ipOf 192 0 2 1) (ipOf 255 255 255 0) (ipOf 192 0 2 1))
    (CloudDomain.mk ["52:54:00:00:00:01", "52:54:00:00:00:02"] (ipOf 192 0 2 5)
      [some AddIp.dhcp])
    rfl
